import Mathlib

/-!
Shallow embedding of the Wizard card-game rules engine (`game_logic.py`)
and proofs about its documented behaviour.

Python specifics modelled explicitly:
  * `random.shuffle` is nondeterministic, so every function that deals takes
    the already-shuffled deck as a parameter;
  * `datetime.now()` is nondeterministic, so every function that stamps
    `last_updated` takes the timestamp string as a parameter;
  * `list.pop()` removes from the END of the Python list, modelled by
    `pop_last`;
  * a function that can raise an uncaught Python exception (IndexError,
    ZeroDivisionError, TypeError on `None` arithmetic, AttributeError on
    `None.name`) returns `Option _`, with `none` standing for the exception.
-/

namespace WizardGame

/-- Card suits - Wizard and Jester are special suits (`Suit`). -/
inductive Suit where
  | hearts
  | diamonds
  | clubs
  | spades
  | wizard
  | jester
deriving DecidableEq

/-- Current phase of the game (`GamePhase`). -/
inductive GamePhase where
  | waiting_for_players
  | choosing_trump
  | bidding
  | playing
  | trick_complete
  | round_complete
  | game_over
deriving DecidableEq

/-- A single card: suit plus value (1-13 normal, 0 Jester, 14 Wizard). -/
structure Card where
  suit : Suit
  value : Int
deriving DecidableEq

/-- A player (`Player` dataclass). -/
structure Player where
  player_id : String
  name : String
  hand : List Card
  bid : Option Int
  tricks_won : Int
  score : Int
  is_ready : Bool
  is_connected : Bool
deriving DecidableEq

/-- A card played to the current trick (`PlayedCard`). -/
structure PlayedCard where
  player_id : String
  card : Card
deriving DecidableEq

/-- A chat message (`ChatMessage`). -/
structure ChatMessage where
  player_name : String
  message : String
  timestamp : String
deriving DecidableEq

/-- Complete state of a game (`GameState` dataclass). -/
structure GameState where
  game_id : String
  host_id : String
  players : List Player
  phase : GamePhase
  current_round : Nat
  current_trick : Nat
  current_player_index : Nat
  dealer_index : Nat
  trump_card : Option Card
  trump_suit : Option Suit
  lead_suit : Option Suit
  current_trick_cards : List PlayedCard
  trick_winner : Option String
  deck : List Card
  last_updated : String
  message : String
  chat_messages : List ChatMessage
deriving DecidableEq

/-- `GameState.max_rounds`: `60 // len(players)`, 0 for an empty table. -/
def GameState.max_rounds (s : GameState) : Nat :=
  if s.players.length = 0 then 0 else 60 / s.players.length

/-- `GameState.cards_this_round`: the round number doubles as the hand size. -/
def GameState.cards_this_round (s : GameState) : Nat :=
  s.current_round

/-- `GameState.current_player`: `None` when the index is out of range. -/
def GameState.current_player (s : GameState) : Option Player :=
  s.players.get? s.current_player_index

/-- `GameState.get_player`: first player with the given id, if any. -/
def GameState.get_player (s : GameState) (pid : String) : Option Player :=
  s.players.find? (fun p => decide (p.player_id = pid))

/-- Mutation of the object returned by `get_player`, seen from the list:
update the first player whose id matches. -/
def update_first_player (pid : String) (f : Player → Player) :
    List Player → List Player
  | [] => []
  | p :: ps =>
    if p.player_id = pid then f p :: ps
    else p :: update_first_player pid f ps

/-- Python truthiness test `trump_suit and ...`: a `None` suit is falsy. -/
def suit_matches (o : Option Suit) (x : Suit) : Bool :=
  match o with
  | none => false
  | some t => decide (x = t)

/-- `create_deck`: the 60-card Wizard deck in construction order. -/
def create_deck : List Card :=
  (List.replicate 4 ⟨Suit.wizard, 14⟩)
    ++ (List.replicate 4 ⟨Suit.jester, 0⟩)
    ++ ([Suit.hearts, Suit.diamonds, Suit.clubs, Suit.spades].flatMap
          (fun st => (List.range 13).map (fun v => ⟨st, (v : Int) + 1⟩)))

/-- Python `list.pop()`: remove and return the LAST element. -/
def pop_last (l : List Card) : Option (Card × List Card) :=
  match l.getLast? with
  | none => none
  | some c => some (c, l.dropLast)

/-- `sort_key` order on cards: `(suit_order, -value)` ascending. -/
def card_le (a b : Card) : Bool :=
  let ord : Suit → Int := fun st =>
    match st with
    | Suit.wizard => 0
    | Suit.spades => 1
    | Suit.hearts => 2
    | Suit.diamonds => 3
    | Suit.clubs => 4
    | Suit.jester => 5
  decide (ord a.suit < ord b.suit
    ∨ (ord a.suit = ord b.suit ∧ -a.value ≤ -b.value))

/-- `player.hand.sort(key=...)` on one hand. -/
def sort_hand (h : List Card) : List Card :=
  h.mergeSort card_le

/-- One round-robin dealing pass: each player pops one card off the deck
end (skipped once the deck is empty). -/
def deal_pass : List Player → List Card → List Player × List Card
  | [], deck => ([], deck)
  | p :: ps, deck =>
    match pop_last deck with
    | none => (p :: ps, deck)
    | some (c, rest) =>
      let r := deal_pass ps rest
      ({ p with hand := p.hand ++ [c] } :: r.1, r.2)

/-- `for _ in range(cards_to_deal)`: iterate the dealing pass. -/
def deal_rounds : Nat → List Player → List Card → List Player × List Card
  | 0, ps, deck => (ps, deck)
  | n + 1, ps, deck =>
    let r := deal_pass ps deck
    deal_rounds n r.1 r.2

/-- The dealing part of `deal_cards`: clear hands, bids and trick counts,
deal `cards_this_round` round-robin passes off the shuffled deck, sort
each hand; returns the players and the remaining deck. -/
def deal_hands (shuffled : List Card) (s : GameState) :
    List Player × List Card :=
  let cleared := s.players.map
    (fun p => { p with hand := [], bid := none, tricks_won := 0 })
  let dealt := deal_rounds s.cards_this_round cleared shuffled
  (dealt.1.map (fun p => { p with hand := sort_hand p.hand }), dealt.2)

/-- `deal_cards(game_state)` with the shuffled deck passed explicitly.
`none` models the IndexError on `players[dealer_index]` in the Wizard
branch or the ZeroDivisionError on `% len(players)` at the end. -/
def deal_cards (shuffled : List Card) (s : GameState) : Option GameState :=
  let sorted := (deal_hands shuffled s).1
  let flip : Option (Option Card × Option Suit × GamePhase × String × List Card) :=
    match pop_last (deal_hands shuffled s).2 with
    | none => some (none, none, s.phase, s.message, (deal_hands shuffled s).2)
    | some (tc, rest) =>
      if tc.suit = Suit.wizard then
        match sorted.get? s.dealer_index with
        | none => none
        | some dp =>
          some (some tc, none, GamePhase.choosing_trump,
            "Wizard flipped! " ++ dp.name ++ " must choose trump suit.", rest)
      else if tc.suit = Suit.jester then
        some (some tc, none, s.phase, s.message, rest)
      else
        some (some tc, some tc.suit, s.phase, s.message, rest)
  match flip with
  | none => none
  | some (tcard, tsuit, ph, msg, deck3) =>
    if sorted.length = 0 then none
    else
      some { s with
        players := sorted,
        deck := deck3,
        trump_card := tcard,
        trump_suit := tsuit,
        phase := ph,
        message := msg,
        current_player_index := (s.dealer_index + 1) % sorted.length,
        current_trick := 1,
        current_trick_cards := [],
        lead_suit := none }

/-- `get_forbidden_bid(game_state)`: -1 is the no-restriction sentinel.
`none` models the IndexError on `players[dealer_index]`. -/
def get_forbidden_bid (s : GameState) : Option Int :=
  match s.players.get? s.dealer_index with
  | none => none
  | some dealer =>
    match s.current_player with
    | none => some (-1)
    | some current =>
      if current.player_id ≠ dealer.player_id then some (-1)
      else
        let other_bids :=
          (s.players.filter
            (fun p => decide (p.player_id ≠ dealer.player_id))).map Player.bid
        if none ∈ other_bids then some (-1)
        else
          let total : Int := (other_bids.filterMap id).sum
          let tricks : Int := (s.cards_this_round : Int)
          let forbidden := tricks - total
          if 0 ≤ forbidden ∧ forbidden ≤ tricks then some forbidden
          else some (-1)

/-- Display tag of a suit (the enum `value` strings). -/
def suit_to_str : Suit → String
  | Suit.hearts => "♥"
  | Suit.diamonds => "♦"
  | Suit.clubs => "♣"
  | Suit.spades => "♠"
  | Suit.wizard => "🧙"
  | Suit.jester => "🃏"

/-- `choose_trump(game_state, player_id, suit)`. -/
def choose_trump (now pid : String) (st : Suit) (s : GameState) :
    Option GameState :=
  match s.players.get? s.dealer_index with
  | none => none
  | some dealer =>
    if pid ≠ dealer.player_id then some s
    else if s.phase ≠ GamePhase.choosing_trump then some s
    else
      match s.current_player with
      | none => none
      | some cp =>
        some { s with
          trump_suit := some st,
          phase := GamePhase.bidding,
          message := dealer.name ++ " chose " ++ suit_to_str st
            ++ " as trump! " ++ cp.name ++ "\x27s turn to bid.",
          last_updated := now }

/-- `place_bid(game_state, player_id, bid)`. -/
def place_bid (now pid : String) (b : Int) (s : GameState) :
    Option GameState :=
  match s.get_player pid with
  | none => some s
  | some _ =>
    let players2 :=
      update_first_player pid (fun p => { p with bid := some b }) s.players
    if players2.all (fun p => p.bid.isSome) then
      let idx := (s.dealer_index + 1) % players2.length
      match players2.get? idx with
      | none => none
      | some cp =>
        some { s with
          players := players2,
          current_player_index := idx,
          phase := GamePhase.playing,
          message := "Bidding complete! " ++ cp.name ++ "\x27s turn to lead.",
          last_updated := now }
    else
      let idx := (s.current_player_index + 1) % players2.length
      match players2.get? idx with
      | none => none
      | some cp =>
        some { s with
          players := players2,
          current_player_index := idx,
          message := "Waiting for " ++ cp.name ++ " to bid.",
          last_updated := now }

/-- The `elif` chain of `determine_trick_winner` deciding whether the
candidate replaces the current best, as a function of the five booleans
(candidate is trump, best is trump, candidate follows lead, best follows
lead, candidate has strictly higher value). -/
def code_replaces (ct wt cl wl gt : Bool) : Bool :=
  if ct && !wt then true
  else if wt && !ct then false
  else if ct && wt then gt
  else if cl && wl then gt
  else if cl && !wl then true
  else false

/-- The scanning loop of `determine_trick_winner`: accumulator is the
current `winning_played` (None before the first non-Jester) and the local
`lead_suit`, which is set by the first non-Jester ordinary card when still
unset. -/
def trick_loop (trump : Option Suit) :
    Option Suit → Option PlayedCard → List PlayedCard → Option PlayedCard
  | _, w, [] => w
  | lead, w, pc :: rest =>
    if pc.card.suit = Suit.jester then trick_loop trump lead w rest
    else
      match w with
      | none =>
        let lead2 :=
          if lead = none ∧ pc.card.suit ≠ Suit.wizard
              ∧ pc.card.suit ≠ Suit.jester
          then some pc.card.suit else lead
        trick_loop trump lead2 (some pc) rest
      | some wp =>
        if code_replaces (suit_matches trump pc.card.suit)
            (suit_matches trump wp.card.suit)
            (suit_matches lead pc.card.suit)
            (suit_matches lead wp.card.suit)
            (decide (pc.card.value > wp.card.value))
        then trick_loop trump lead (some pc) rest
        else trick_loop trump lead (some wp) rest

/-- `determine_trick_winner(game_state)`: `none` models the IndexError on
`current_trick_cards[0]` for an empty play list. -/
def determine_trick_winner (s : GameState) : Option String :=
  match s.current_trick_cards.find?
      (fun pc => decide (pc.card.suit = Suit.wizard)) with
  | some pc => some pc.player_id
  | none =>
    if s.current_trick_cards.all
        (fun pc => decide (pc.card.suit = Suit.jester)) then
      s.current_trick_cards.head?.map PlayedCard.player_id
    else
      match trick_loop s.trump_suit s.lead_suit none s.current_trick_cards with
      | some wp => some wp.player_id
      | none => s.current_trick_cards.head?.map PlayedCard.player_id

/-- `play_card(game_state, player_id, card)`. The hand update is the
Python filter, which removes EVERY copy equal to the played card. -/
def play_card (now pid : String) (card : Card) (s : GameState) :
    Option GameState :=
  match s.get_player pid with
  | none => some s
  | some _ =>
    let players2 :=
      update_first_player pid
        (fun p => { p with hand := p.hand.filter (fun c =>
            decide (¬(c.suit = card.suit ∧ c.value = card.value))) })
        s.players
    let lead2 :=
      if s.current_trick_cards = [] then
        (if card.suit ≠ Suit.wizard ∧ card.suit ≠ Suit.jester
         then some card.suit else none)
      else if s.lead_suit = none ∧ card.suit ≠ Suit.wizard
          ∧ card.suit ≠ Suit.jester then
        some card.suit
      else s.lead_suit
    let trick2 := s.current_trick_cards ++ [⟨pid, card⟩]
    if trick2.length = players2.length then
      let sMid := { s with
        players := players2, lead_suit := lead2,
        current_trick_cards := trick2 }
      match determine_trick_winner sMid with
      | none => none
      | some wid =>
        match sMid.get_player wid with
        | none => none
        | some w =>
          let players3 :=
            update_first_player wid
              (fun p => { p with tricks_won := p.tricks_won + 1 }) players2
          some { sMid with
            players := players3,
            trick_winner := some wid,
            phase := GamePhase.trick_complete,
            message := w.name ++ " wins the trick!",
            last_updated := now }
    else
      let idx := (s.current_player_index + 1) % players2.length
      match players2.get? idx with
      | none => none
      | some cp =>
        some { s with
          players := players2,
          lead_suit := lead2,
          current_trick_cards := trick2,
          current_player_index := idx,
          message := cp.name ++ "\x27s turn to play.",
          last_updated := now }

/-- Per-player score update in `calculate_round_scores`; `none` models the
TypeError of `abs(None - int)` when the bid is unset. -/
def score_player (p : Player) : Option Player :=
  if p.bid = some p.tricks_won then
    some { p with score := p.score + 20 + 10 * p.tricks_won }
  else
    match p.bid with
    | none => none
    | some b => some { p with score := p.score - 10 * |b - p.tricks_won| }

/-- A Python list comprehension over a fallible element operation. -/
def traverse_opt (f : α → Option β) : List α → Option (List β)
  | [] => some []
  | a :: rest =>
    match f a with
    | none => none
    | some b =>
      match traverse_opt f rest with
      | none => none
      | some bs => some (b :: bs)

/-- How Python prints an `Optional[int]` inside an f-string. -/
def bid_str : Option Int → String
  | none => "None"
  | some b => toString b

/-- `calculate_round_scores(game_state)` (does not stamp `last_updated`). -/
def calculate_round_scores (s : GameState) : Option GameState :=
  match traverse_opt score_player s.players with
  | none => none
  | some players2 =>
    let msgs := players2.map (fun p =>
      p.name ++ " bid " ++ bid_str p.bid ++ ", won "
        ++ toString p.tricks_won ++ " ("
        ++ (if p.bid = some p.tricks_won then "made" else "missed") ++ ")")
    some { s with
      players := players2,
      message := "Round complete! " ++ String.intercalate " | " msgs }

/-- Python `max(players, key=lambda p: p.score)`: keeps the FIRST element
whose score is never strictly exceeded later. -/
def py_max_by_score : List Player → Option Player
  | [] => none
  | p :: ps =>
    some (ps.foldl (fun best q => if q.score > best.score then q else best) p)

/-- `start_next_round(game_state)` with the shuffled deck and timestamp
passed explicitly.  `none` models `% 0` on an empty table (and the
propagated exceptions of `deal_cards`). -/
def start_next_round (shuffled : List Card) (now : String) (s : GameState) :
    Option GameState :=
  if s.players.length = 0 then none
  else
    let s1 := { s with
      current_round := s.current_round + 1,
      dealer_index := (s.dealer_index + 1) % s.players.length }
    if s1.current_round > s1.max_rounds then
      match py_max_by_score s1.players with
      | none => none
      | some w =>
        some { s1 with
          phase := GamePhase.game_over,
          message := "Game Over! " ++ w.name ++ " wins with "
            ++ toString w.score ++ " points!",
          last_updated := now }
    else
      match deal_cards shuffled s1 with
      | none => none
      | some s2 =>
        match s2.current_player with
        | none => none
        | some cp =>
          some { s2 with
            phase := GamePhase.bidding,
            message := "Round " ++ toString s2.current_round ++ ". "
              ++ cp.name ++ "\x27s turn to bid.",
            last_updated := now }

/-- `leave_game(game_state, player_id)`: total, never raises. -/
def leave_game (now pid : String) (s : GameState) : GameState :=
  match s.get_player pid with
  | none => s
  | some pl =>
    let players2 :=
      update_first_player pid
        (fun p => { p with is_connected := false }) s.players
    if s.host_id = pid then
      let connected := players2.filter
        (fun p => p.is_connected && decide (p.player_id ≠ pid))
      match connected.head? with
      | some nh =>
        { s with
          players := players2,
          host_id := nh.player_id,
          message := "🚪 " ++ pl.name ++ " has left! 👑 " ++ nh.name
            ++ " is now the host!",
          last_updated := now }
      | none =>
        { s with
          players := players2,
          message := "🚪 " ++ pl.name ++ " has left the game!",
          last_updated := now }
    else
      { s with
        players := players2,
        message := "🚪 " ++ pl.name ++ " has left the game!",
        last_updated := now }

/-- `start_game(game_state)` with the shuffled deck and timestamp passed
explicitly. -/
def start_game (shuffled : List Card) (now : String) (s : GameState) :
    Option GameState :=
  if s.players.length < 2 then
    some { s with message := "Need at least 2 players to start!" }
  else
    match deal_cards shuffled s with
    | none => none
    | some s2 =>
      match s2.current_player with
      | none => none
      | some cp =>
        some { s2 with
          phase := GamePhase.bidding,
          message := "Round 1 begins! " ++ cp.name ++ "\x27s turn to bid.",
          last_updated := now }

/-! ## Serialization (`to_dict` / `from_dict`)

The dictionaries produced by the `to_dict` methods are mirrored by `…D`
structures: enums are stored by their stable string tags, optional fields
as `Option`, numbers pass through.  Each `from_dict` can raise `ValueError`
on an unknown enum tag, hence returns `Option`. -/

/-- The dict written by `Card.to_dict`. -/
structure CardD where
  suit : String
  value : Int
deriving DecidableEq

/-- The dict written by `Player.to_dict`. -/
structure PlayerD where
  player_id : String
  name : String
  hand : List CardD
  bid : Option Int
  tricks_won : Int
  score : Int
  is_ready : Bool
  is_connected : Bool
deriving DecidableEq

/-- The dict written by `PlayedCard.to_dict`. -/
structure PlayedCardD where
  player_id : String
  card : CardD
deriving DecidableEq

/-- The dict written by `ChatMessage.to_dict`. -/
structure ChatMessageD where
  player_name : String
  message : String
  timestamp : String
deriving DecidableEq

/-- The dict written by `GameState.to_dict`. -/
structure GameStateD where
  game_id : String
  host_id : String
  players : List PlayerD
  phase : String
  current_round : Nat
  current_trick : Nat
  current_player_index : Nat
  dealer_index : Nat
  trump_card : Option CardD
  trump_suit : Option String
  lead_suit : Option String
  current_trick_cards : List PlayedCardD
  trick_winner : Option String
  deck : List CardD
  last_updated : String
  message : String
  chat_messages : List ChatMessageD
deriving DecidableEq

/-- `Suit(tag)`: parse a suit from its string tag. -/
def suit_of_str (t : String) : Option Suit :=
  if t = "♥" then some Suit.hearts
  else if t = "♦" then some Suit.diamonds
  else if t = "♣" then some Suit.clubs
  else if t = "♠" then some Suit.spades
  else if t = "🧙" then some Suit.wizard
  else if t = "🃏" then some Suit.jester
  else none

/-- Stable string tag of a phase (the enum `value`). -/
def phase_to_str : GamePhase → String
  | GamePhase.waiting_for_players => "waiting_for_players"
  | GamePhase.choosing_trump => "choosing_trump"
  | GamePhase.bidding => "bidding"
  | GamePhase.playing => "playing"
  | GamePhase.trick_complete => "trick_complete"
  | GamePhase.round_complete => "round_complete"
  | GamePhase.game_over => "game_over"

/-- `GamePhase(tag)`: parse a phase from its string tag. -/
def phase_of_str (t : String) : Option GamePhase :=
  if t = "waiting_for_players" then some GamePhase.waiting_for_players
  else if t = "choosing_trump" then some GamePhase.choosing_trump
  else if t = "bidding" then some GamePhase.bidding
  else if t = "playing" then some GamePhase.playing
  else if t = "trick_complete" then some GamePhase.trick_complete
  else if t = "round_complete" then some GamePhase.round_complete
  else if t = "game_over" then some GamePhase.game_over
  else none

/-- `Card.to_dict`. -/
def Card.to_dict (c : Card) : CardD :=
  ⟨suit_to_str c.suit, c.value⟩

/-- `Card.from_dict`. -/
def Card.from_dict (d : CardD) : Option Card :=
  match suit_of_str d.suit with
  | none => none
  | some st => some ⟨st, d.value⟩

/-- `Player.to_dict`. -/
def Player.to_dict (p : Player) : PlayerD :=
  ⟨p.player_id, p.name, p.hand.map Card.to_dict, p.bid, p.tricks_won,
    p.score, p.is_ready, p.is_connected⟩

/-- `Player.from_dict`. -/
def Player.from_dict (d : PlayerD) : Option Player :=
  match traverse_opt Card.from_dict d.hand with
  | none => none
  | some h =>
    some ⟨d.player_id, d.name, h, d.bid, d.tricks_won, d.score,
      d.is_ready, d.is_connected⟩

/-- `PlayedCard.to_dict`. -/
def PlayedCard.to_dict (pc : PlayedCard) : PlayedCardD :=
  ⟨pc.player_id, pc.card.to_dict⟩

/-- `PlayedCard.from_dict`. -/
def PlayedCard.from_dict (d : PlayedCardD) : Option PlayedCard :=
  match Card.from_dict d.card with
  | none => none
  | some c => some ⟨d.player_id, c⟩

/-- `ChatMessage.to_dict`. -/
def ChatMessage.to_dict (cm : ChatMessage) : ChatMessageD :=
  ⟨cm.player_name, cm.message, cm.timestamp⟩

/-- `ChatMessage.from_dict`. -/
def ChatMessage.from_dict (d : ChatMessageD) : Option ChatMessage :=
  some ⟨d.player_name, d.message, d.timestamp⟩

/-- `GameState.to_dict`. -/
def GameState.to_dict (s : GameState) : GameStateD :=
  { game_id := s.game_id
    host_id := s.host_id
    players := s.players.map Player.to_dict
    phase := phase_to_str s.phase
    current_round := s.current_round
    current_trick := s.current_trick
    current_player_index := s.current_player_index
    dealer_index := s.dealer_index
    trump_card := s.trump_card.map Card.to_dict
    trump_suit := s.trump_suit.map suit_to_str
    lead_suit := s.lead_suit.map suit_to_str
    current_trick_cards := s.current_trick_cards.map PlayedCard.to_dict
    trick_winner := s.trick_winner
    deck := s.deck.map Card.to_dict
    last_updated := s.last_updated
    message := s.message
    chat_messages := s.chat_messages.map ChatMessage.to_dict }

/-- Python truthiness of `data.get(key)` for a string-or-None field:
`None` and the empty string are falsy. -/
def truthy_str : Option String → Option String
  | none => none
  | some t => if t = "" then none else some t

/-- `GameState.from_dict`. -/
def GameState.from_dict (d : GameStateD) : Option GameState :=
  match phase_of_str d.phase with
  | none => none
  | some ph =>
    match traverse_opt Player.from_dict d.players with
    | none => none
    | some ps =>
      match (match d.trump_card with
             | none => some none
             | some cd => (Card.from_dict cd).map some) with
      | none => none
      | some tc =>
        match (match truthy_str d.trump_suit with
               | none => some none
               | some t => (suit_of_str t).map some) with
        | none => none
        | some ts =>
          match (match truthy_str d.lead_suit with
                 | none => some none
                 | some t => (suit_of_str t).map some) with
          | none => none
          | some ls =>
            match traverse_opt PlayedCard.from_dict d.current_trick_cards with
            | none => none
            | some tcards =>
              match traverse_opt Card.from_dict d.deck with
              | none => none
              | some dk =>
                match traverse_opt ChatMessage.from_dict d.chat_messages with
                | none => none
                | some cms =>
                  some { game_id := d.game_id
                         host_id := d.host_id
                         players := ps
                         phase := ph
                         current_round := d.current_round
                         current_trick := d.current_trick
                         current_player_index := d.current_player_index
                         dealer_index := d.dealer_index
                         trump_card := tc
                         trump_suit := ts
                         lead_suit := ls
                         current_trick_cards := tcards
                         trick_winner := d.trick_winner
                         deck := dk
                         last_updated := d.last_updated
                         message := d.message
                         chat_messages := cms }

/-! ## Spec-side definitions

These follow the wording of the specification, to be compared with the
embedded code. -/

/-- Spec §4.3 step 3 precedence, deciding whether candidate card `c` beats
the current best `w`: trump beats non-trump; among two trumps higher rank
wins; a lead-suit follower beats a card that is neither trump nor lead;
among two lead-suit followers higher rank wins; otherwise the earlier card
stands. -/
def spec_replaces (ct wt cl wl gt : Bool) : Bool :=
  if ct ∧ ¬wt then true
  else if wt ∧ ¬ct then false
  else if ct ∧ wt then gt
  else
    if cl ∧ ¬wl then true
    else if cl ∧ wl then gt
    else false

/-- Spec-side beats relation on cards given trump and lead suit. -/
def spec_beats (trump lead : Option Suit) (c w : Card) : Bool :=
  spec_replaces (suit_matches trump c.suit) (suit_matches trump w.suit)
    (suit_matches lead c.suit) (suit_matches lead w.suit)
    (decide (c.value > w.value))

/-- Spec-side scan: Jesters are skipped, every other candidate replaces the
best exactly when it beats it. -/
def spec_scan (trump lead : Option Suit) (best : PlayedCard) :
    List PlayedCard → PlayedCard
  | [] => best
  | pc :: rest =>
    if pc.card.suit = Suit.jester then spec_scan trump lead best rest
    else if spec_beats trump lead pc.card best.card then
      spec_scan trump lead pc rest
    else spec_scan trump lead best rest

/-- First non-Jester play and the plays after it. -/
def first_nonjester : List PlayedCard → Option (PlayedCard × List PlayedCard)
  | [] => none
  | pc :: rest =>
    if pc.card.suit = Suit.jester then first_nonjester rest
    else some (pc, rest)

/-- Spec-side winner of a completed trick: the first Wizard if any; the
first player to act if all Jesters; otherwise the scan result starting from
the first non-Jester, deriving the lead suit from it when still unset. -/
def spec_winner (trump lead : Option Suit) (plays : List PlayedCard) :
    Option String :=
  match plays.find? (fun pc => decide (pc.card.suit = Suit.wizard)) with
  | some pc => some pc.player_id
  | none =>
    if plays.all (fun pc => decide (pc.card.suit = Suit.jester)) then
      plays.head?.map PlayedCard.player_id
    else
      match first_nonjester plays with
      | none => plays.head?.map PlayedCard.player_id
      | some (f, rest) =>
        let lead2 := if lead = none then some f.card.suit else lead
        some ((spec_scan trump lead2 f rest).player_id)

/-- Spec-side forbidden bid: `cards_this_round − sum(other bids)` exactly
when the current actor is the dealer, every other player has bid, and the
difference lies within `[0, cards_this_round]`; sentinel -1 otherwise. -/
def spec_forbidden (s : GameState) : Int :=
  match s.players.get? s.dealer_index, s.current_player with
  | some dealer, some current =>
    let others := s.players.filter
      (fun p => decide (p.player_id ≠ dealer.player_id))
    let diff : Int := (s.cards_this_round : Int) - (others.filterMap Player.bid).sum
    if current.player_id = dealer.player_id
        ∧ others.all (fun p => p.bid.isSome)
        ∧ 0 ≤ diff ∧ diff ≤ (s.cards_this_round : Int)
    then diff
    else -1
  | _, _ => -1

/-- Spec-side scoring of one player: `+20 + 10×tricks` on an exact bid,
`−10×|bid − tricks|` otherwise; nothing else changes. -/
def spec_score_update (p : Player) : Player :=
  match p.bid with
  | none => p
  | some b =>
    if b = p.tricks_won then
      { p with score := p.score + (20 + 10 * p.tricks_won) }
    else
      { p with score := p.score - 10 * |b - p.tricks_won| }

/-- Spec-side game winner: the first player in seating order whose
cumulative score is maximal. -/
def spec_first_max (l : List Player) : Option Player :=
  match (l.map Player.score).max? with
  | none => none
  | some m => l.find? (fun p => decide (m ≤ p.score))

/-! ## Concrete states used by evaluation theorems and witnesses -/

/-- A player with the given id, name, bid, hand, tricks won and score. -/
def mk_player (pid nm : String) (b : Option Int) (hd : List Card)
    (tw sc : Int) : Player :=
  ⟨pid, nm, hd, b, tw, sc, false, true⟩

/-- A base in-play state over the given seating. -/
def base_state (ps : List Player) : GameState :=
  ⟨"g", "p1", ps, GamePhase.playing, 1, 1, 0, 0, none, none, none, [],
    none, [], "", "", []⟩

/-- Two seated players still waiting for the game to start. -/
def c1_state : GameState :=
  { base_state [mk_player "p1" "Ann" none [] 0 0,
      mk_player "p2" "Ben" none [] 0 0] with
    phase := GamePhase.waiting_for_players }

/-- Two players mid-play; `p1` holds only the 5 of hearts. -/
def c2_state : GameState :=
  base_state [mk_player "p1" "Ann" none [⟨Suit.hearts, 5⟩] 0 0,
    mk_player "p2" "Ben" none [⟨Suit.clubs, 7⟩] 0 0]

/-- Two players mid-play; `p1` holds two equal Wizard copies. -/
def c3_state : GameState :=
  base_state
    [mk_player "p1" "Ann" none [⟨Suit.wizard, 14⟩, ⟨Suit.wizard, 14⟩] 0 0,
     mk_player "p2" "Ben" none [⟨Suit.clubs, 7⟩] 0 0]

/-- Scenario C: lead Clubs, trump Spades, plays 10♣, 3♠, K♣. -/
def c4_state : GameState :=
  { base_state [mk_player "p1" "Ann" none [] 0 0,
      mk_player "p2" "Ben" none [] 0 0, mk_player "p3" "Cho" none [] 0 0] with
    trump_suit := some Suit.spades,
    lead_suit := some Suit.clubs,
    current_trick_cards := [⟨"p1", ⟨Suit.clubs, 10⟩⟩,
      ⟨"p2", ⟨Suit.spades, 3⟩⟩, ⟨"p3", ⟨Suit.clubs, 13⟩⟩] }

/-- Scenario D: 4 players, round 5, non-dealer bids 2, 1, 1, dealer to act. -/
def c5_state : GameState :=
  { base_state [mk_player "p1" "Ann" (some 2) [] 0 0,
      mk_player "p2" "Ben" (some 1) [] 0 0,
      mk_player "p3" "Cho" (some 1) [] 0 0,
      mk_player "p4" "Dee" none [] 0 0] with
    phase := GamePhase.bidding,
    current_round := 5,
    dealer_index := 3,
    current_player_index := 3 }

/-- Scenario E: one player bid 3 and won 3 tricks, one bid 2 and won 0. -/
def c6_state : GameState :=
  base_state [mk_player "p1" "Ann" (some 3) [] 3 0,
    mk_player "p2" "Ben" (some 2) [] 0 0]

/-- A 4-player game that has just scored round 15 (its last round). -/
def c7_state : GameState :=
  { base_state [mk_player "p1" "Ann" none [] 0 10,
      mk_player "p2" "Ben" none [] 0 30,
      mk_player "p3" "Cho" none [] 0 30,
      mk_player "p4" "Dee" none [] 0 (-20)] with
    phase := GamePhase.round_complete,
    current_round := 15 }

/-- A single-player game: the host is the only (connected) player. -/
def c8_sole_state : GameState :=
  base_state [mk_player "p1" "Ann" none [] 0 0]

/-- A two-player game, both connected, `p1` hosting. -/
def c8_pair_state : GameState :=
  base_state [mk_player "p1" "Ann" none [] 0 0,
    mk_player "p2" "Ben" none [] 0 0]

/-- A finished game in which `p2` (not the current actor) bids anyway. -/
def c10_state : GameState :=
  { base_state [mk_player "p1" "Ann" none [] 0 0,
      mk_player "p2" "Ben" none [] 0 0] with
    phase := GamePhase.game_over,
    current_player_index := 0 }

/-! ## Spec-side transition descriptions used in claim statements -/

/-- Spec-side description of `place_bid` for a seated actor: the first seat
with the actor's id gets its bid overwritten, the current-player index
advances one seat (wrapping), and once every bid is non-null the phase
becomes PLAYING with the actor reset to the seat after the dealer. -/
def place_bid_spec (now pid : String) (b : Int) (s : GameState) : Prop :=
  ∃ i p0 m,
    s.players.get? i = some p0 ∧ p0.player_id = pid ∧
    (∀ j q, j < i → s.players.get? j = some q → q.player_id ≠ pid) ∧
    place_bid now pid b s =
      some { s with
        players := s.players.set i { p0 with bid := some b },
        current_player_index :=
          if (s.players.set i { p0 with bid := some b }).all
              (fun p => p.bid.isSome)
          then (s.dealer_index + 1) % s.players.length
          else (s.current_player_index + 1) % s.players.length,
        phase :=
          if (s.players.set i { p0 with bid := some b }).all
              (fun p => p.bid.isSome)
          then GamePhase.playing else s.phase,
        message := m,
        last_updated := now }

/-- Spec-side description of `leave_game` for a seated player, as amended:
the first seat with the leaver's id is marked disconnected (seat and hand
retained); if the leaver hosted, the host identifier moves to the first
connected seat among the remaining players, and is left unchanged when no
other player remains connected. -/
def leave_game_spec (now pid : String) (s : GameState) : Prop :=
  ∃ i p0,
    s.players.get? i = some p0 ∧ p0.player_id = pid ∧
    (∀ j q, j < i → s.players.get? j = some q → q.player_id ≠ pid) ∧
    (leave_game now pid s).players =
      s.players.set i { p0 with is_connected := false } ∧
    (s.host_id = pid →
      (match ((s.players.set i { p0 with is_connected := false }).filter
          (fun p => p.is_connected && decide (p.player_id ≠ pid))).head? with
       | some nh => (leave_game now pid s).host_id = nh.player_id
       | none => (leave_game now pid s).host_id = s.host_id)) ∧
    (s.host_id ≠ pid → (leave_game now pid s).host_id = s.host_id)

/-- Spec-side description of `advance_round`: the round number increments,
the dealer rotates one seat; past `max_rounds = 60 / player_count` the
phase becomes GAME_OVER with no re-deal and the announced winner is the
first player in seating order with the maximal cumulative score; otherwise
the phase becomes BIDDING after a re-deal (bids and trick counts reset). -/
def advance_round_spec (d : List Card) (now : String) (s : GameState) :
    Prop :=
  ∃ s', start_next_round d now s = some s'
    ∧ s'.current_round = s.current_round + 1
    ∧ s'.dealer_index = (s.dealer_index + 1) % s.players.length
    ∧ (s.current_round + 1 > 60 / s.players.length →
        s'.phase = GamePhase.game_over ∧ s'.players = s.players
        ∧ s'.deck = s.deck
        ∧ ∃ w, spec_first_max s.players = some w
            ∧ s'.message = "Game Over! " ++ w.name ++ " wins with "
                ++ toString w.score ++ " points!")
    ∧ (¬ (s.current_round + 1 > 60 / s.players.length) →
        s'.phase = GamePhase.bidding
        ∧ s'.players.map (fun p => (p.bid, p.tricks_won))
            = s.players.map (fun _ => ((none : Option Int), (0 : Int))))

/-! ## Theorems -/

/-- C1: dealing a Wizard as trump card must leave the game in
CHOOSING_TRUMP until the dealer chooses; `deal_cards` does set
CHOOSING_TRUMP, but `start_game` (like `start_next_round`) afterwards
overwrites the phase with BIDDING while the trump suit is still
undetermined, contradicting the dealing comment in the code.  Evaluated on
a two-player game with a shuffle that flips a Wizard. -/
theorem c1_wizard_flip_bidding_overwrites_choosing_trump :
    (deal_cards create_deck.reverse c1_state).map GameState.phase
      = some GamePhase.choosing_trump
    ∧ (start_game create_deck.reverse "t0" c1_state).map
        (fun s => (s.phase, s.trump_card, s.trump_suit))
      = some (GamePhase.bidding, some ⟨Suit.wizard, 14⟩, none) := by
  exact ⟨rfl, rfl⟩

/-- C2: playing a card that is not in the seated actor's hand is claimed
to be a silent no-op, but `play_card` never checks possession: the hand is
left unchanged, yet the phantom card is appended to the trick and the turn
advances.  Evaluated on a two-player game where `p1` plays the 9♠ while
holding only the 5♥. -/
theorem c2_missing_card_play_still_mutates :
    ((c2_state.get_player "p1").map
        (fun p => p.hand.contains ⟨Suit.spades, 9⟩)) = some false
    ∧ c2_state.current_trick_cards.length = 0
    ∧ (play_card "t0" "p1" ⟨Suit.spades, 9⟩ c2_state).map
        (fun s => (s.current_trick_cards, s.current_player_index,
          (s.get_player "p1").map Player.hand))
      = some ([⟨"p1", ⟨Suit.spades, 9⟩⟩], 1, some [⟨Suit.hearts, 5⟩])
    ∧ play_card "t0" "p1" ⟨Suit.spades, 9⟩ c2_state ≠ some c2_state := by
  refine ⟨rfl, rfl, rfl, ?_⟩
  decide

/-- C3: playing one of several equal copies is claimed to remove exactly
one card, but the `play_card` hand filter removes EVERY equal copy:
playing a Wizard from a hand of two Wizards empties the hand instead of
leaving one card. -/
theorem c3_play_removes_all_equal_copies :
    ((c3_state.get_player "p1").map (fun p => p.hand.length)) = some 2
    ∧ ((play_card "t0" "p1" ⟨Suit.wizard, 14⟩ c3_state).bind
        (fun s => (s.get_player "p1").map Player.hand)) = some [] := by
  exact ⟨rfl, rfl⟩

/-- Suit tags parse back to the suit they were printed from. -/
theorem suit_round (st : Suit) : suit_of_str (suit_to_str st) = some st := by
  cases st <;> rfl

/-- Suit tags are never empty, so Python truthiness keeps them. -/
theorem suit_tag_truthy (st : Suit) :
    truthy_str (some (suit_to_str st)) = some (suit_to_str st) := by
  cases st <;> rfl

/-- Phase tags parse back to the phase they were printed from. -/
theorem phase_round (ph : GamePhase) :
    phase_of_str (phase_to_str ph) = some ph := by
  cases ph <;> rfl

/-- Cards survive the dictionary round trip. -/
theorem card_round (c : Card) : Card.from_dict c.to_dict = some c := by
  cases c with
  | mk st v => simp [Card.to_dict, Card.from_dict, suit_round]

/-- A fallible traversal of a mapped list succeeds element-wise. -/
theorem traverse_round (f : β → Option α) (g : α → β)
    (hfg : ∀ a, f (g a) = some a) :
    ∀ l : List α, traverse_opt f (l.map g) = some l := by
  intro l
  induction l with
  | nil => rfl
  | cons a rest ih => simp [traverse_opt, hfg, ih]

/-- Players survive the dictionary round trip. -/
theorem player_round (p : Player) : Player.from_dict p.to_dict = some p := by
  cases p
  simp [Player.to_dict, Player.from_dict,
    traverse_round Card.from_dict Card.to_dict card_round]

/-- Played cards survive the dictionary round trip. -/
theorem played_card_round (pc : PlayedCard) :
    PlayedCard.from_dict pc.to_dict = some pc := by
  cases pc with
  | mk pid c => simp [PlayedCard.to_dict, PlayedCard.from_dict, card_round]

/-- Chat messages survive the dictionary round trip. -/
theorem chat_round (cm : ChatMessage) :
    ChatMessage.from_dict cm.to_dict = some cm := by
  cases cm
  rfl

/-- An optional card field survives the round trip. -/
theorem opt_card_round (o : Option Card) :
    (match o.map Card.to_dict with
     | none => some none
     | some cd => (Card.from_dict cd).map some) = some o := by
  cases o <;> simp [card_round]

/-- An optional suit field survives the round trip, including the Python
truthiness test on the stored tag. -/
theorem opt_suit_round (o : Option Suit) :
    (match truthy_str (o.map suit_to_str) with
     | none => some none
     | some t => (suit_of_str t).map some) = some o := by
  cases o with
  | none => rfl
  | some st =>
    show (match truthy_str (some (suit_to_str st)) with
      | none => some none
      | some t => (suit_of_str t).map some) = some (some st)
    rw [suit_tag_truthy]
    simp [suit_round]

/-- C9: deserializing the serialization of any game state, in any phase,
restores every field of the original state. -/
theorem c9_serialization_round_trip (s : GameState) :
    GameState.from_dict s.to_dict = some s := by
  cases s
  simp [GameState.to_dict, GameState.from_dict, phase_round,
    traverse_round Player.from_dict Player.to_dict player_round,
    traverse_round PlayedCard.from_dict PlayedCard.to_dict played_card_round,
    traverse_round Card.from_dict Card.to_dict card_round,
    traverse_round ChatMessage.from_dict ChatMessage.to_dict chat_round,
    opt_card_round, opt_suit_round]

/-- A player with a recorded bid is scored exactly as the spec formula
says, with no other field changed. -/
theorem score_player_eq (p : Player) (h : p.bid.isSome) :
    score_player p = some (spec_score_update p) := by
  obtain ⟨b, hb⟩ := Option.isSome_iff_exists.mp h
  by_cases hbt : b = p.tricks_won
  · subst hbt
    simp [score_player, spec_score_update, hb, add_assoc]
  · have hne : p.bid ≠ some p.tricks_won := by
      rw [hb]
      simp [hbt]
    simp [score_player, spec_score_update, hb, hne, hbt]

/-- A fallible traversal whose element operation succeeds pointwise
computes the element-wise map. -/
theorem traverse_pointwise (f : α → Option β) (g : α → β) :
    ∀ l : List α, (∀ a ∈ l, f a = some (g a)) →
      traverse_opt f l = some (l.map g) := by
  intro l
  induction l with
  | nil => intro _; rfl
  | cons a rest ih =>
    intro h
    have ha := h a (by simp)
    have hr := ih (fun x hx => h x (by simp [hx]))
    simp [traverse_opt, ha, hr]

/-- C6: at round scoring every player's cumulative score moves by exactly
`+20 + 10×tricks_won` on an exact bid and `−10×|bid − tricks_won|`
otherwise, and nothing else in the state changes apart from the status
message. -/
theorem c6_round_scoring_spec (s : GameState)
    (h : ∀ p ∈ s.players, p.bid.isSome) :
    ∃ m, calculate_round_scores s =
      some { s with
        players := s.players.map spec_score_update,
        message := m } := by
  have ht : traverse_opt score_player s.players
      = some (s.players.map spec_score_update) :=
    traverse_pointwise _ _ s.players (fun p hp => score_player_eq p (h p hp))
  refine ⟨"Round complete! " ++ String.intercalate " | "
    ((s.players.map spec_score_update).map (fun p =>
      p.name ++ " bid " ++ bid_str p.bid ++ ", won "
        ++ toString p.tricks_won ++ " ("
        ++ (if p.bid = some p.tricks_won then "made" else "missed")
        ++ ")")), ?_⟩
  unfold calculate_round_scores
  rw [ht]

/-- Witness for C6 at Scenario E: a bid of 3 with 3 tricks gains 50, a bid
of 2 with 0 tricks loses 20. -/
theorem c6_round_scoring_spec_witness :
    (∀ p ∈ c6_state.players, p.bid.isSome)
    ∧ (calculate_round_scores c6_state).map
        (fun s => s.players.map Player.score) = some [50, -20] := by
  constructor
  · decide
  · obtain ⟨m, hm⟩ := c6_round_scoring_spec c6_state (by decide)
    rw [hm]
    rfl

/-- `None` sits among the mapped bids exactly when some bid is unset. -/
theorem none_mem_bids (l : List Player) :
    none ∈ l.map Player.bid ↔ ¬ ((l.all fun p => p.bid.isSome) = true) := by
  induction l with
  | nil => simp
  | cons p rest ih => cases hb : p.bid <;> simp [hb, ih]

/-- Summing the non-null entries of the mapped bids is summing the bids
that are set. -/
theorem filterMap_id_map_bid (l : List Player) :
    (l.map Player.bid).filterMap id = l.filterMap Player.bid := by
  induction l with
  | nil => rfl
  | cons p rest ih => cases hb : p.bid <;> simp [List.filterMap_cons, hb, ih]

/-- C5: the forbidden dealer bid is `cards_this_round − sum(other bids)`
exactly when the current actor is the dealer, every other player has bid,
and that difference lies within `[0, cards_this_round]`; in every other
case the sentinel −1 (no restriction) is returned. -/
theorem c5_forbidden_bid_spec (s : GameState)
    (h : s.dealer_index < s.players.length) :
    get_forbidden_bid s = some (spec_forbidden s) := by
  obtain ⟨dealer, hd⟩ : ∃ d, s.players.get? s.dealer_index = some d := by
    rw [List.get?_eq_get h]
    exact ⟨_, rfl⟩
  unfold get_forbidden_bid spec_forbidden
  rw [hd]
  cases hc : s.current_player with
  | none => rfl
  | some current =>
    dsimp only
    by_cases hid : current.player_id = dealer.player_id
    · rw [if_neg (not_not_intro hid)]
      by_cases hall : ((s.players.filter
          (fun p => decide (p.player_id ≠ dealer.player_id))).all
            fun p => p.bid.isSome) = true
      · have hmem : ¬ (none ∈ (s.players.filter
            (fun p => decide (p.player_id ≠ dealer.player_id))).map
              Player.bid) := fun hm => (none_mem_bids _).mp hm hall
        rw [if_neg hmem, filterMap_id_map_bid]
        by_cases hb : (0:Int) ≤ (s.cards_this_round : Int)
              - ((s.players.filter
                (fun p => decide (p.player_id ≠ dealer.player_id))).filterMap
                  Player.bid).sum
            ∧ (s.cards_this_round : Int)
              - ((s.players.filter
                (fun p => decide (p.player_id ≠ dealer.player_id))).filterMap
                  Player.bid).sum ≤ (s.cards_this_round : Int)
        · rw [if_pos hb, if_pos ⟨hid, hall, hb.1, hb.2⟩]
        · rw [if_neg hb, if_neg (fun hcond =>
            hb ⟨hcond.2.2.1, hcond.2.2.2⟩)]
      · have hmem : none ∈ (s.players.filter
            (fun p => decide (p.player_id ≠ dealer.player_id))).map
              Player.bid := (none_mem_bids _).mpr hall
        rw [if_pos hmem, if_neg (fun hcond => hall hcond.2.1)]
    · rw [if_pos hid, if_neg (fun hcond => hid hcond.1)]

/-- Witness for C5 at Scenario D: 4 players, 5 cards this round, other
bids 2, 1, 1, so the dealer is forbidden to bid 1. -/
theorem c5_forbidden_bid_spec_witness :
    c5_state.dealer_index < c5_state.players.length
    ∧ get_forbidden_bid c5_state = some (spec_forbidden c5_state)
    ∧ spec_forbidden c5_state = 1 := by
  refine ⟨by decide, c5_forbidden_bid_spec c5_state (by decide), by decide⟩

/-- Mutating the object returned by a successful `get_player` updates the
first seat whose id matches, seen as `List.set` at the first match index. -/
theorem update_first_spec (pid : String) (f : Player → Player) :
    ∀ l : List Player,
      (l.find? (fun p => decide (p.player_id = pid))).isSome →
      ∃ i p0, l.get? i = some p0 ∧ p0.player_id = pid ∧
        (∀ j q, j < i → l.get? j = some q → q.player_id ≠ pid) ∧
        update_first_player pid f l = l.set i (f p0) := by
  intro l
  induction l with
  | nil => intro hq; simp [List.find?] at hq
  | cons p ps ih =>
    intro hq
    by_cases hp : p.player_id = pid
    · refine ⟨0, p, rfl, hp, ?_, ?_⟩
      · intro j q hj _
        exact absurd hj (Nat.not_lt_zero j)
      · simp [update_first_player, hp]
    · have hq' : (ps.find? (fun p => decide (p.player_id = pid))).isSome := by
        rwa [List.find?_cons_of_neg _ (by simpa using hp)] at hq
      obtain ⟨i, p0, h1, h2, h3, h4⟩ := ih hq'
      refine ⟨i + 1, p0, by simpa using h1, h2, ?_, ?_⟩
      · intro j q' hj hget
        cases j with
        | zero =>
          have : q' = p := by simpa using hget.symm
          subst this
          exact hp
        | succ k =>
          exact h3 k q' (by omega) (by simpa using hget)
      · simp [update_first_player, hp, h4]

/-- C10: `place_bid` performs no phase or turn check: any seated player in
any phase gets their bid overwritten, the current-player index advances by
one seat (wrapping), and once every bid is non-null the phase becomes
PLAYING with the current actor reset to the seat after the dealer. -/
theorem c10_place_bid_no_guard (now pid : String) (b : Int) (s : GameState)
    (h : (s.get_player pid).isSome) : place_bid_spec now pid b s := by
  obtain ⟨p', hp'⟩ := Option.isSome_iff_exists.mp h
  obtain ⟨i, p0, h1, h2, h3, h4⟩ :=
    update_first_spec pid (fun p => { p with bid := some b }) s.players
      (by show (s.get_player pid).isSome
          rw [hp']
          rfl)
  have hlen : 0 < s.players.length := by
    obtain ⟨hi, -⟩ := List.get?_eq_some.mp h1
    omega
  have hL : (s.players.set i { p0 with bid := some b }).length
      = s.players.length := List.length_set _ _ _
  unfold place_bid_spec
  by_cases hall : ((s.players.set i { p0 with bid := some b }).all
      (fun p => p.bid.isSome)) = true
  · have hidx : (s.dealer_index + 1) % s.players.length
        < s.players.length := Nat.mod_lt _ hlen
    obtain ⟨cp, hcp⟩ : ∃ cp, (s.players.set i { p0 with bid := some b }).get?
        ((s.dealer_index + 1) % s.players.length)
        = some cp := by
      refine ⟨_, List.get?_eq_get ?_⟩
      rw [hL]
      exact hidx
    refine ⟨i, p0,
      "Bidding complete! " ++ cp.name ++ "\x27s turn to lead.",
      h1, h2, h3, ?_⟩
    unfold place_bid
    rw [hp']
    dsimp only
    rw [h4]
    rw [if_pos hall]
    rw [hL]
    rw [hcp]
    dsimp only
    rw [if_pos hall, if_pos hall]
  · have hidx : (s.current_player_index + 1) % s.players.length
        < s.players.length := Nat.mod_lt _ hlen
    obtain ⟨cp, hcp⟩ : ∃ cp, (s.players.set i { p0 with bid := some b }).get?
        ((s.current_player_index + 1) % s.players.length)
        = some cp := by
      refine ⟨_, List.get?_eq_get ?_⟩
      rw [hL]
      exact hidx
    refine ⟨i, p0, "Waiting for " ++ cp.name ++ " to bid.",
      h1, h2, h3, ?_⟩
    unfold place_bid
    rw [hp']
    dsimp only
    rw [h4]
    rw [if_neg hall]
    rw [hL]
    rw [hcp]
    dsimp only
    rw [if_neg hall, if_neg hall]

/-- Witness for C10: in a GAME_OVER state, `p2` — who is not the current
actor — still gets a bid recorded. -/
theorem c10_place_bid_no_guard_witness :
    (c10_state.get_player "p2").isSome
    ∧ place_bid_spec "t0" "p2" 1 c10_state := by
  exact ⟨by decide, c10_place_bid_no_guard "t0" "p2" 1 c10_state (by decide)⟩

/-- C8 counterexample: when the sole connected player — the host — leaves,
no other connected player remains, yet the host identifier is NOT left
unset: it still holds the departed player's id (`host_id` is a plain
string field, so "unset" could only mean cleared). -/
theorem c8_host_identifier_not_cleared :
    (leave_game "t0" "p1" c8_sole_state).host_id = "p1"
    ∧ ((leave_game "t0" "p1" c8_sole_state).players.filter
        (fun p => p.is_connected && decide (p.player_id ≠ "p1"))) = []
    ∧ ¬ ((leave_game "t0" "p1" c8_sole_state).host_id = "") := by
  exact ⟨rfl, rfl, by decide⟩

/-- C8 as amended: `leave_game` marks the first seat with the leaver's id
disconnected (seat and hand retained), transfers the host identifier to
the first connected seat among the remaining players when the host left,
and leaves the host identifier unchanged when no other connected player
remains. -/
theorem c8_leave_game_amended (now pid : String) (s : GameState)
    (h : (s.get_player pid).isSome) : leave_game_spec now pid s := by
  obtain ⟨pl, hpl⟩ := Option.isSome_iff_exists.mp h
  obtain ⟨i, p0, h1, h2, h3, h4⟩ :=
    update_first_spec pid (fun p => { p with is_connected := false }) s.players
      (by show (s.get_player pid).isSome
          rw [hpl]
          rfl)
  unfold leave_game_spec
  by_cases hh : s.host_id = pid
  · cases hhead : ((s.players.set i { p0 with is_connected := false }).filter
        (fun p => p.is_connected && decide (p.player_id ≠ pid))).head? with
    | some nh =>
      have hlv : leave_game now pid s = { s with
          players := s.players.set i { p0 with is_connected := false },
          host_id := nh.player_id,
          message := "🚪 " ++ pl.name ++ " has left! 👑 " ++ nh.name
            ++ " is now the host!",
          last_updated := now } := by
        unfold leave_game
        rw [hpl]
        dsimp only
        rw [h4]
        rw [if_pos hh]
        rw [hhead]
      refine ⟨i, p0, h1, h2, h3, by rw [hlv], ?_, ?_⟩
      · intro _
        rw [hhead]
        rw [hlv]
      · intro hne
        exact absurd hh hne
    | none =>
      have hlv : leave_game now pid s = { s with
          players := s.players.set i { p0 with is_connected := false },
          message := "🚪 " ++ pl.name ++ " has left the game!",
          last_updated := now } := by
        unfold leave_game
        rw [hpl]
        dsimp only
        rw [h4]
        rw [if_pos hh]
        rw [hhead]
      refine ⟨i, p0, h1, h2, h3, by rw [hlv], ?_, ?_⟩
      · intro _
        rw [hhead]
        rw [hlv]
      · intro hne
        exact absurd hh hne
  · have hlv : leave_game now pid s = { s with
        players := s.players.set i { p0 with is_connected := false },
        message := "🚪 " ++ pl.name ++ " has left the game!",
        last_updated := now } := by
      unfold leave_game
      rw [hpl]
      dsimp only
      rw [h4]
      rw [if_neg hh]
    refine ⟨i, p0, h1, h2, h3, by rw [hlv], ?_, ?_⟩
    · intro heq
      exact absurd heq hh
    · intro _
      rw [hlv]

/-- Witness for the amended C8: in a two-player game the departing host's
role moves to the remaining connected player `p2`. -/
theorem c8_leave_game_amended_witness :
    (c8_pair_state.get_player "p1").isSome
    ∧ leave_game_spec "t0" "p1" c8_pair_state
    ∧ (leave_game "t0" "p1" c8_pair_state).host_id = "p2" := by
  exact ⟨by decide, c8_leave_game_amended "t0" "p1" c8_pair_state (by decide),
    by decide⟩

/-- A dealing pass does not change the number of players. -/
theorem deal_pass_len (ps : List Player) :
    ∀ deck, (deal_pass ps deck).1.length = ps.length := by
  induction ps with
  | nil => intro deck; rfl
  | cons p rest ih =>
    intro deck
    unfold deal_pass
    cases hp : pop_last deck with
    | none => rfl
    | some cr =>
      obtain ⟨c, r2⟩ := cr
      dsimp only
      rw [List.length_cons, List.length_cons, ih]

/-- A dealing pass touches only hands: bids and trick counts persist. -/
theorem deal_pass_bids (ps : List Player) :
    ∀ deck, (deal_pass ps deck).1.map (fun p => (p.bid, p.tricks_won))
      = ps.map (fun p => (p.bid, p.tricks_won)) := by
  induction ps with
  | nil => intro deck; rfl
  | cons p rest ih =>
    intro deck
    unfold deal_pass
    cases hp : pop_last deck with
    | none => rfl
    | some cr =>
      obtain ⟨c, r2⟩ := cr
      dsimp only
      rw [List.map_cons, List.map_cons, ih]

/-- Iterated dealing passes do not change the number of players. -/
theorem deal_rounds_len (n : Nat) :
    ∀ ps deck, (deal_rounds n ps deck).1.length = ps.length := by
  induction n with
  | zero => intro ps deck; rfl
  | succ k ih =>
    intro ps deck
    unfold deal_rounds
    dsimp only
    rw [ih, deal_pass_len]

/-- Iterated dealing passes keep bids and trick counts. -/
theorem deal_rounds_bids (n : Nat) :
    ∀ ps deck, (deal_rounds n ps deck).1.map (fun p => (p.bid, p.tricks_won))
      = ps.map (fun p => (p.bid, p.tricks_won)) := by
  induction n with
  | zero => intro ps deck; rfl
  | succ k ih =>
    intro ps deck
    unfold deal_rounds
    dsimp only
    rw [ih, deal_pass_bids]

/-- Dealing preserves the seat count. -/
theorem deal_hands_len (d : List Card) (s : GameState) :
    (deal_hands d s).1.length = s.players.length := by
  unfold deal_hands
  dsimp only
  rw [List.length_map, deal_rounds_len, List.length_map]

/-- After dealing, every bid is cleared and every trick count is zero. -/
theorem deal_hands_bids (d : List Card) (s : GameState) :
    (deal_hands d s).1.map (fun p => (p.bid, p.tricks_won))
      = s.players.map (fun _ => ((none : Option Int), (0 : Int))) := by
  unfold deal_hands
  dsimp only
  rw [List.map_map]
  have h1 : ((fun p : Player => (p.bid, p.tricks_won))
      ∘ (fun p : Player => { p with hand := sort_hand p.hand }))
      = fun p : Player => (p.bid, p.tricks_won) := rfl
  rw [h1, deal_rounds_bids, List.map_map]
  rfl

/-- `deal_cards` succeeds on a non-empty table with a valid dealer index,
preserving seat count, round number and dealer, seating the actor after
the dealer, and clearing all bids and trick counts. -/
theorem deal_cards_spec (d : List Card) (s : GameState)
    (h0 : 0 < s.players.length) (hD : s.dealer_index < s.players.length) :
    ∃ s2, deal_cards d s = some s2
      ∧ s2.players.length = s.players.length
      ∧ s2.players.map (fun p => (p.bid, p.tricks_won))
          = s.players.map (fun _ => ((none : Option Int), (0 : Int)))
      ∧ s2.current_player_index = (s.dealer_index + 1) % s.players.length
      ∧ s2.current_round = s.current_round
      ∧ s2.dealer_index = s.dealer_index := by
  obtain ⟨dp, hdp⟩ : ∃ dp, (deal_hands d s).1.get? s.dealer_index = some dp :=
    ⟨_, List.get?_eq_get (by rw [deal_hands_len]; exact hD)⟩
  have hne : ¬ ((deal_hands d s).1.length = 0) := by
    rw [deal_hands_len]
    omega
  unfold deal_cards
  dsimp only
  cases hpop : pop_last (deal_hands d s).2 with
  | none =>
    dsimp only
    rw [if_neg hne]
    refine ⟨_, rfl, deal_hands_len d s, deal_hands_bids d s, ?_, rfl, rfl⟩
    show (s.dealer_index + 1) % (deal_hands d s).1.length
      = (s.dealer_index + 1) % s.players.length
    rw [deal_hands_len]
  | some cr =>
    obtain ⟨tc, rest⟩ := cr
    dsimp only
    by_cases hw : tc.suit = Suit.wizard
    · rw [if_pos hw]
      rw [hdp]
      dsimp only
      rw [if_neg hne]
      refine ⟨_, rfl, deal_hands_len d s, deal_hands_bids d s, ?_, rfl, rfl⟩
      show (s.dealer_index + 1) % (deal_hands d s).1.length
        = (s.dealer_index + 1) % s.players.length
      rw [deal_hands_len]
    · rw [if_neg hw]
      by_cases hj : tc.suit = Suit.jester
      · rw [if_pos hj]
        dsimp only
        rw [if_neg hne]
        refine ⟨_, rfl, deal_hands_len d s, deal_hands_bids d s, ?_, rfl, rfl⟩
        show (s.dealer_index + 1) % (deal_hands d s).1.length
          = (s.dealer_index + 1) % s.players.length
        rw [deal_hands_len]
      · rw [if_neg hj]
        dsimp only
        rw [if_neg hne]
        refine ⟨_, rfl, deal_hands_len d s, deal_hands_bids d s, ?_, rfl, rfl⟩
        show (s.dealer_index + 1) % (deal_hands d s).1.length
          = (s.dealer_index + 1) % s.players.length
        rw [deal_hands_len]

/-- The seed of a left max-fold bounds its result from below. -/
theorem le_foldl_max (l : List Int) : ∀ a : Int, a ≤ l.foldl max a := by
  induction l with
  | nil => intro a; exact le_refl a
  | cons x xs ih => intro a; exact le_trans (le_max_left a x) (ih (max a x))

/-- One step of the Python `max(..., key=score)` fold computes the score
maximum of the two candidates. -/
theorem py_step_score (p q : Player) :
    (if q.score > p.score then q else p).score = max p.score q.score := by
  split_ifs with h
  · exact (max_eq_right (le_of_lt h)).symm
  · exact (max_eq_left (not_lt.mp h)).symm

/-- The Python `max` fold lands on the first seat reaching the score
maximum: searching for the first score at least the maximum finds it. -/
theorem py_fold_find (ps : List Player) :
    ∀ (p : Player) (m : Int),
      m = (ps.map Player.score).foldl max p.score →
      (p :: ps).find? (fun x => decide (m ≤ x.score))
        = some (ps.foldl
            (fun best q => if q.score > best.score then q else best) p) := by
  induction ps with
  | nil =>
    intro p m hm
    simp only [List.map_nil, List.foldl_nil] at hm
    subst hm
    rw [@List.find?_cons_of_pos _ (fun x => decide (p.score ≤ x.score)) p []
      (by simp)]
    rfl
  | cons q rest ih =>
    intro p m hm
    simp only [List.map_cons, List.foldl_cons] at hm
    have hm' : m = (rest.map Player.score).foldl max
        ((if q.score > p.score then q else p).score) := by
      rw [py_step_score]
      exact hm
    have hub : max p.score q.score ≤ m := by
      rw [hm]
      exact le_foldl_max _ _
    have hIH := ih (if q.score > p.score then q else p) m hm'
    by_cases hq : q.score > p.score
    · rw [if_pos hq] at hIH
      have hpredp : ¬ ((fun x => decide (m ≤ x.score)) p = true) := by
        simp only [decide_eq_true_eq]
        intro hle
        have hqp : q.score ≤ p.score :=
          le_trans (le_trans (le_max_right _ _) hub) hle
        omega
      rw [@List.find?_cons_of_neg _ (fun x => decide (m ≤ x.score)) p
        (q :: rest) hpredp]
      rw [List.foldl_cons, if_pos hq]
      exact hIH
    · rw [if_neg hq] at hIH
      by_cases hp : m ≤ p.score
      · have hpredp : (fun x => decide (m ≤ x.score)) p = true := by
          simpa using hp
        rw [@List.find?_cons_of_pos _ (fun x => decide (m ≤ x.score)) p
          (q :: rest) hpredp]
        rw [@List.find?_cons_of_pos _ (fun x => decide (m ≤ x.score)) p
          rest hpredp] at hIH
        rw [List.foldl_cons, if_neg hq]
        exact hIH
      · have hpredp : ¬ ((fun x => decide (m ≤ x.score)) p = true) := by
          simpa using hp
        have hpredq : ¬ ((fun x => decide (m ≤ x.score)) q = true) := by
          simp only [decide_eq_true_eq]
          intro hle
          exact hp (le_trans hle (not_lt.mp hq))
        rw [@List.find?_cons_of_neg _ (fun x => decide (m ≤ x.score)) p
          (q :: rest) hpredp]
        rw [@List.find?_cons_of_neg _ (fun x => decide (m ≤ x.score)) q
          rest hpredq]
        rw [@List.find?_cons_of_neg _ (fun x => decide (m ≤ x.score)) p
          rest hpredp] at hIH
        rw [List.foldl_cons, if_neg hq]
        exact hIH

/-- Python `max(players, key=score)` is exactly the first player in
seating order with the maximal score. -/
theorem py_max_eq_spec (l : List Player) :
    py_max_by_score l = spec_first_max l := by
  cases l with
  | nil => rfl
  | cons p ps =>
    unfold py_max_by_score spec_first_max
    have hmax : ((p :: ps).map Player.score).max?
        = some ((ps.map Player.score).foldl max p.score) := rfl
    rw [hmax]
    dsimp only
    exact (py_fold_find ps p _ rfl).symm

/-- The Python `max` of a non-empty seating exists. -/
theorem py_max_some (l : List Player) (h : l ≠ []) :
    ∃ w, py_max_by_score l = some w := by
  cases l with
  | nil => exact absurd rfl h
  | cons p ps => exact ⟨_, rfl⟩

/-- C7: `advance_round` increments the round number and rotates the dealer
one seat; if the new round number exceeds `max_rounds = 60 / player_count`
the phase becomes GAME_OVER with no re-deal and the announced winner is
the first player in seating order with the maximal score; otherwise it
re-deals (bids and trick counts cleared) and the phase becomes BIDDING. -/
theorem c7_advance_round (d : List Card) (now : String) (s : GameState)
    (h : 0 < s.players.length) : advance_round_spec d now s := by
  unfold advance_round_spec start_next_round
  rw [if_neg (by omega : ¬ s.players.length = 0)]
  dsimp only
  have hmax : GameState.max_rounds { s with
      current_round := s.current_round + 1,
      dealer_index := (s.dealer_index + 1) % s.players.length }
      = 60 / s.players.length := by
    show (if s.players.length = 0 then 0 else 60 / s.players.length)
      = 60 / s.players.length
    rw [if_neg (by omega)]
  rw [hmax]
  by_cases hover : s.current_round + 1 > 60 / s.players.length
  · rw [if_pos hover]
    obtain ⟨w, hw⟩ := py_max_some s.players
      (by intro hnil
          rw [hnil] at h
          simp at h)
    rw [hw]
    dsimp only
    refine ⟨_, rfl, rfl, rfl, ?_, ?_⟩
    · intro _
      refine ⟨rfl, rfl, rfl, w, ?_, rfl⟩
      rw [← py_max_eq_spec]
      exact hw
    · intro hc
      exact absurd hover hc
  · rw [if_neg hover]
    obtain ⟨s2, hs2, hlen2, hbids2, hidx2, hround2, hdealer2⟩ :=
      deal_cards_spec d { s with
        current_round := s.current_round + 1,
        dealer_index := (s.dealer_index + 1) % s.players.length }
        h (Nat.mod_lt _ h)
    rw [hs2]
    dsimp only
    obtain ⟨cp, hcp⟩ : ∃ cp, s2.current_player = some cp := by
      unfold GameState.current_player
      refine ⟨_, List.get?_eq_get ?_⟩
      rw [hidx2, hlen2]
      exact Nat.mod_lt _ h
    rw [hcp]
    dsimp only
    refine ⟨_, rfl, hround2, hdealer2, ?_, ?_⟩
    · intro hc
      exact absurd hc hover
    · intro _
      exact ⟨rfl, hbids2⟩

/-- Witness for C7: with 4 players `max_rounds = 15`, so advancing past
round 15 ends the game instead of re-dealing. -/
theorem c7_advance_round_witness :
    0 < c7_state.players.length
    ∧ advance_round_spec [] "t0" c7_state
    ∧ (start_next_round [] "t0" c7_state).map GameState.phase
        = some GamePhase.game_over := by
  exact ⟨by decide, c7_advance_round [] "t0" c7_state (by decide), by decide⟩

/-- The code's `elif` replacement chain decides exactly the spec's
precedence relation. -/
theorem code_eq_spec_replaces :
    ∀ a b c d e : Bool, code_replaces a b c d e = spec_replaces a b c d e := by
  decide

/-- Once a best card is held, the scanning loop of the code agrees with
the spec-side scan. -/
theorem trick_loop_some (rest : List PlayedCard) :
    ∀ (trump lead : Option Suit) (wp : PlayedCard),
      trick_loop trump lead (some wp) rest
        = some (spec_scan trump lead wp rest) := by
  induction rest with
  | nil => intro trump lead wp; rfl
  | cons pc r ih =>
    intro trump lead wp
    by_cases hj : pc.card.suit = Suit.jester
    · simp only [trick_loop, spec_scan]
      rw [if_pos hj, if_pos hj]
      exact ih trump lead wp
    · simp only [trick_loop, spec_scan]
      rw [if_neg hj, if_neg hj]
      rw [code_eq_spec_replaces]
      simp only [spec_beats]
      by_cases hb : spec_replaces (suit_matches trump pc.card.suit)
          (suit_matches trump wp.card.suit) (suit_matches lead pc.card.suit)
          (suit_matches lead wp.card.suit)
          (decide (pc.card.value > wp.card.value)) = true
      · rw [if_pos hb, if_pos hb]
        exact ih trump lead pc
      · rw [if_neg hb, if_neg hb]
        exact ih trump lead wp

/-- Before any best card is held, the code's loop finds the first
non-Jester, derives the lead suit from it when unset, and continues as the
spec-side scan — provided no Wizard is among the plays (Wizards are
handled before the loop ever runs). -/
theorem trick_loop_none (plays : List PlayedCard) :
    ∀ (trump lead : Option Suit),
      (∀ pc ∈ plays, pc.card.suit ≠ Suit.wizard) →
      trick_loop trump lead none plays
        = match first_nonjester plays with
          | none => none
          | some (f, rest) =>
            some (spec_scan trump
              (if lead = none then some f.card.suit else lead) f rest) := by
  induction plays with
  | nil => intro trump lead _; rfl
  | cons pc r ih =>
    intro trump lead hNW
    by_cases hj : pc.card.suit = Suit.jester
    · simp only [trick_loop, first_nonjester]
      rw [if_pos hj, if_pos hj]
      exact ih trump lead (fun x hx => hNW x (by simp [hx]))
    · have hw : pc.card.suit ≠ Suit.wizard := hNW pc (by simp)
      simp only [trick_loop, first_nonjester]
      rw [if_neg hj, if_neg hj]
      dsimp only
      by_cases hl : lead = none
      · rw [if_pos ⟨hl, hw, hj⟩, if_pos hl]
        exact trick_loop_some r trump (some pc.card.suit) pc
      · rw [if_neg (fun hc => hl hc.1), if_neg hl]
        exact trick_loop_some r trump lead pc

/-- A play list that is not all Jesters has a first non-Jester. -/
theorem all_jester_or_first (plays : List PlayedCard) :
    ¬ ((plays.all fun pc => decide (pc.card.suit = Suit.jester)) = true) →
    ∃ fr, first_nonjester plays = some fr := by
  induction plays with
  | nil => intro hall; exact absurd rfl hall
  | cons pc r ih =>
    intro hall
    by_cases hj : pc.card.suit = Suit.jester
    · have hr : ¬ ((r.all fun pc => decide (pc.card.suit = Suit.jester))
          = true) := by
        intro hrall
        exact hall (by simp [List.all_cons, hj, hrall])
      obtain ⟨fr, hfr⟩ := ih hr
      refine ⟨fr, ?_⟩
      simp only [first_nonjester, hj]
      simpa using hfr
    · exact ⟨(pc, r), by simp [first_nonjester, hj]⟩

/-- The spec-side winner exists for a non-empty play list. -/
theorem spec_winner_isSome (trump lead : Option Suit)
    (plays : List PlayedCard) (h : plays ≠ []) :
    (spec_winner trump lead plays).isSome := by
  unfold spec_winner
  cases hf : plays.find? (fun pc => decide (pc.card.suit = Suit.wizard)) with
  | some pc => rfl
  | none =>
    by_cases hall : (plays.all fun pc => decide (pc.card.suit = Suit.jester))
        = true
    · rw [if_pos hall]
      cases plays with
      | nil => exact absurd rfl h
      | cons a l => rfl
    · rw [if_neg hall]
      obtain ⟨fr, hfr⟩ := all_jester_or_first _ hall
      rw [hfr]
      obtain ⟨f, rest⟩ := fr
      rfl

/-- C4: on a completed trick the code's winner is the spec's winner — the
first Wizard if any was played; the first player to act if every card is a
Jester; otherwise the survivor of the precedence scan (trump over
non-trump, rank among trumps, lead-follower over neither, rank among
lead-followers, earlier card standing otherwise) — and a winner always
exists. -/
theorem c4_trick_winner (s : GameState)
    (h1 : s.current_trick_cards.length = s.players.length)
    (h2 : 0 < s.players.length) :
    determine_trick_winner s
        = spec_winner s.trump_suit s.lead_suit s.current_trick_cards
    ∧ (determine_trick_winner s).isSome := by
  have hne : s.current_trick_cards ≠ [] := by
    intro hnil
    rw [hnil] at h1
    simp at h1
    omega
  have heq : determine_trick_winner s
      = spec_winner s.trump_suit s.lead_suit s.current_trick_cards := by
    unfold determine_trick_winner spec_winner
    cases hf : s.current_trick_cards.find?
        (fun pc => decide (pc.card.suit = Suit.wizard)) with
    | some pc => rfl
    | none =>
      by_cases hall : (s.current_trick_cards.all
          fun pc => decide (pc.card.suit = Suit.jester)) = true
      · rw [if_pos hall, if_pos hall]
      · rw [if_neg hall, if_neg hall]
        have hNW : ∀ pc ∈ s.current_trick_cards,
            pc.card.suit ≠ Suit.wizard := by
          intro pc hpc
          have hx := List.find?_eq_none.mp hf pc hpc
          simpa using hx
        rw [trick_loop_none _ _ _ hNW]
        obtain ⟨fr, hfr⟩ := all_jester_or_first _ hall
        rw [hfr]
  refine ⟨heq, ?_⟩
  rw [heq]
  exact spec_winner_isSome _ _ _ hne

/-- Witness for C4 at Scenario C: lead Clubs, trump Spades, plays
10♣, 3♠, K♣ — the low trump of the second player wins. -/
theorem c4_trick_winner_witness :
    c4_state.current_trick_cards.length = c4_state.players.length
    ∧ 0 < c4_state.players.length
    ∧ determine_trick_winner c4_state
        = spec_winner c4_state.trump_suit c4_state.lead_suit
            c4_state.current_trick_cards
    ∧ determine_trick_winner c4_state = some "p2" := by
  refine ⟨by decide, by decide,
    (c4_trick_winner c4_state (by decide) (by decide)).1, by decide⟩

end WizardGame
